import Mathlib

/-!
Verification development for the serde-split derive crate (src/lib.rs).

The crate is a pair of proc-macro derives, Serialize and Deserialize.  Each
one parses the input declaration into a syn DeriveInput, makes two copies,
filters the attributes of each copy for one mode (json text mode or binary
mode), renames the copies with JsonImpl and BinaryImpl suffixes, and emits
the two shadow declarations plus a trait implementation for the original
type that dispatches on is_human_readable.

We embed the syn structures the crate manipulates and the crate functions
filter_attrs, filter_data, find_serde_crate, derive_serialize and
derive_deserialize as pure Lean functions, and prove the specified
properties about them.
-/

set_option autoImplicit false

namespace SerdeSplit

/-- The meta part of one attribute, mirroring the syn Meta enum exactly as
filter_attrs matches on it: a bare path such as a lone tag, a list form
whose inner tokens we keep abstract, or a name/value form.  The crate only
reads and rewrites the leading path (the "tag"), so the payload is carried
verbatim. -/
inductive Meta where
  | Path (path : String)
  | List (path : String) (tokens : List String)
  | NameValue (path : String) (value : String)
deriving DecidableEq, Repr

/-- The tag of an attribute: the path component, as read by the
attrs[current].path().is_ident(..) calls in filter_attrs. -/
def Meta.path : Meta → String
  | .Path p => p
  | .List p _ => p
  | .NameValue p _ => p

/-- The payload of an attribute, with the path erased.  Used to state that
retagging preserves payload shape and content. -/
inductive Payload where
  | NoPayload
  | ListPayload (tokens : List String)
  | NameValuePayload (value : String)
deriving DecidableEq, Repr

/-- Observer projecting an attribute to its payload. -/
def Meta.payload : Meta → Payload
  | .Path _ => .NoPayload
  | .List _ tokens => .ListPayload tokens
  | .NameValue _ value => .NameValuePayload value

/-- Rewriting the path of an attribute, mirroring the match in filter_attrs
(lines 25-29 of src/lib.rs): each Meta constructor keeps its payload and
only its path is replaced. -/
def Meta.setPath : Meta → String → Meta
  | .Path _, p => .Path p
  | .List _ tokens, p => .List p tokens
  | .NameValue _ value, p => .NameValue p value

/-- Embedding of filter_attrs (src/lib.rs lines 19-37).  The Rust loop
walks the vector with an index, retagging an entry whose tag is the own
mode tag ("json" when is_json, "bin" otherwise) to "serde", removing an
entry whose tag is anything else but "serde", and keeping a "serde" entry;
the index-and-remove loop is the left-to-right traversal written here as
structural recursion. -/
def filter_attrs : List Meta → Bool → List Meta
  | [], _ => []
  | a :: rest, is_json =>
    let replace := if is_json then "json" else "bin"
    if a.path = replace then
      a.setPath "serde" :: filter_attrs rest is_json
    else if a.path ≠ "serde" then
      filter_attrs rest is_json
    else
      a :: filter_attrs rest is_json

/-- A field of a struct, enum variant or union, keeping the parts the
crate touches or must preserve: its attribute list, its optional name and
its type (both kept abstract as strings). -/
structure Field where
  attrs : List Meta
  ident : Option String
  ty : String
deriving DecidableEq, Repr

/-- An enum variant: its attribute list, its name and its fields. -/
structure Variant where
  attrs : List Meta
  ident : String
  fields : List Field
deriving DecidableEq, Repr

/-- The body of a declaration, mirroring the syn Data enum: a struct with
fields, an enum with variants, or a union with named fields. -/
inductive Data where
  | Struct (fields : List Field)
  | Enum (variants : List Variant)
  | Union (named : List Field)
deriving DecidableEq, Repr

/-- One generic parameter, mirroring syn GenericParam: a lifetime, a type
parameter (with its inline bounds kept abstract), or a const parameter.
The lifetime name is stored without its leading tick. -/
inductive GenericParam where
  | Lifetime (ident : String)
  | TypeParam (ident : String) (bounds : List String)
  | ConstParam (ident : String) (ty : String)
deriving DecidableEq, Repr

/-- The resolved path of the serde crate, the token stream produced by
find_serde_crate: either the local crate keyword or a leading-colon
external path. -/
inductive SerdePath where
  | localCrate
  | external (name : String)
deriving DecidableEq, Repr

/-- A trait bound as emitted into a where clause by the derives: the
serialize capability, or the deserialize capability for a borrow lifetime
(the lifetime name stored without its leading tick; the derives use de). -/
inductive TraitBound where
  | Serialize (serde : SerdePath)
  | Deserialize (serde : SerdePath) (lifetime : String)
deriving DecidableEq, Repr

/-- A single predicate of a where clause: either an opaque pre-existing
predicate from the input declaration, or a subject-bound pair synthesized
by the derive. -/
inductive WherePredicate where
  | Opaque (tokens : String)
  | TraitReq (subject : String) (bound : TraitBound)
deriving DecidableEq, Repr

/-- A where clause: its list of predicates. -/
structure WhereClause where
  predicates : List WherePredicate
deriving DecidableEq, Repr

/-- The generics of a declaration: parameter list and optional where
clause, mirroring syn Generics. -/
structure Generics where
  params : List GenericParam
  whereClause : Option WhereClause
deriving DecidableEq, Repr

/-- The parsed input declaration, mirroring syn DeriveInput: outer
attribute list, identifier, generics and body. -/
structure DeriveInput where
  attrs : List Meta
  ident : String
  generics : Generics
  data : Data
deriving DecidableEq, Repr

/-- Embedding of filter_data (src/lib.rs lines 39-63): filter the
declaration's own attribute list, then per body shape the attribute list
of every struct field, of every enum variant and every field of every
variant, and of every union member. -/
def filter_data (input : DeriveInput) (is_json : Bool) : DeriveInput :=
  { input with
    attrs := filter_attrs input.attrs is_json
    data :=
      match input.data with
      | .Struct fields =>
        .Struct (fields.map fun f => { f with attrs := filter_attrs f.attrs is_json })
      | .Enum variants =>
        .Enum (variants.map fun v =>
          { v with
            attrs := filter_attrs v.attrs is_json
            fields := v.fields.map fun f => { f with attrs := filter_attrs f.attrs is_json } })
      | .Union named =>
        .Union (named.map fun f => { f with attrs := filter_attrs f.attrs is_json }) }

/-- Observer: a field with its attribute list blanked. -/
def Field.eraseAttrs (f : Field) : Field :=
  { f with attrs := [] }

/-- Observer: a variant with every attribute list in it blanked. -/
def Variant.eraseAttrs (v : Variant) : Variant :=
  { v with attrs := [], fields := v.fields.map Field.eraseAttrs }

/-- Observer: a body with every attribute list in it blanked. -/
def Data.eraseAttrs : Data → Data
  | .Struct fields => .Struct (fields.map Field.eraseAttrs)
  | .Enum variants => .Enum (variants.map Variant.eraseAttrs)
  | .Union named => .Union (named.map Field.eraseAttrs)

/-- Observer: a declaration with every attribute list in it blanked.  Two
declarations agree on this observer exactly when they have the same
underlying type shape: identifier, generics, field names, field types and
variant structure. -/
def DeriveInput.eraseAttrs (input : DeriveInput) : DeriveInput :=
  { input with attrs := [], data := input.data.eraseAttrs }

/-- Observer: every attribute list of a body, in traversal order; a
variant contributes its own list followed by its fields' lists. -/
def Data.attrLists : Data → List (List Meta)
  | .Struct fields => fields.map Field.attrs
  | .Enum variants => (variants.map fun v => v.attrs :: v.fields.map Field.attrs).flatten
  | .Union named => named.map Field.attrs

/-- Observer: every attribute list of a declaration, the top-level list
first. -/
def DeriveInput.attrLists (input : DeriveInput) : List (List Meta) :=
  input.attrs :: input.data.attrLists

/-- The result of the proc_macro_crate lookup, mirroring the FoundCrate
enum: the consuming project is serde itself, or serde is present under the
given (possibly renamed) dependency name. -/
inductive FoundCrate where
  | Itself
  | Name (name : String)
deriving DecidableEq, Repr

/-- Embedding of find_serde_crate (src/lib.rs lines 6-17).  The
environment-dependent proc_macro_crate lookup is passed in as an argument;
none models its Err case, whose error value the crate discards.  On Itself
the local crate path is produced, on Name the external path, and on
lookup failure the crate panics with the message embedded here; the panic
is modelled as the error case of Except. -/
def find_serde_crate (lookup : Option FoundCrate) : Except String SerdePath :=
  match lookup with
  | some .Itself => .ok .localCrate
  | some (.Name name) => .ok (.external name)
  | none => .error "serde is a co-dependency of serde-split"

/-- The body expression of the emitted trait method, restricted to the
expression forms the two derives actually emit: a variable, a method call
on a named receiver with named arguments, a path-qualified function call
with named arguments, and an if/else. -/
inductive Expr where
  | Var (name : String)
  | MethodCall (receiver : String) (method : String) (args : List String)
  | PathCall (ty : String) (fn : String) (args : List String)
  | IfElse (cond : Expr) (thenBranch : Expr) (elseBranch : Expr)
deriving DecidableEq, Repr

/-- The number of runtime branches (if/else nodes) in an emitted body. -/
def Expr.countBranches : Expr → Nat
  | .Var _ => 0
  | .MethodCall _ _ _ => 0
  | .PathCall _ _ _ => 0
  | .IfElse cond thenBranch elseBranch =>
    1 + cond.countBranches + thenBranch.countBranches + elseBranch.countBranches

/-- The output of one derive invocation: the two emitted shadow
declarations, the remote name correlating them to the original type, the
generic parameter list and where clause of the emitted trait
implementation, and the body of its method.  All of it is wrapped by the
crate in an anonymous const scope; the wrapper carries no data and is not
modelled. -/
structure DeriveOutput where
  json_shadow : DeriveInput
  bin_shadow : DeriveInput
  remote_name : String
  impl_params : List GenericParam
  impl_whereClause : Option WhereClause
  impl_body : Expr
deriving DecidableEq, Repr

/-- The predicates appended by derive_serialize: one Serialize bound per
type parameter of the input generics, in order, skipping lifetime and
const parameters (the filter_map at src/lib.rs lines 93-99 and 102-108). -/
def serialize_predicates (serde : SerdePath) (params : List GenericParam) : List WherePredicate :=
  params.filterMap fun param =>
    match param with
    | .TypeParam ident _ => some (.TraitReq ident (.Serialize serde))
    | _ => none

/-- The predicates appended by derive_deserialize: one Deserialize bound
for the de lifetime per type parameter of the input generics (the
filter_map at src/lib.rs lines 178-184 and 187-193). -/
def deserialize_predicates (serde : SerdePath) (params : List GenericParam) : List WherePredicate :=
  params.filterMap fun param =>
    match param with
    | .TypeParam ident _ => some (.TraitReq ident (.Deserialize serde "de"))
    | _ => none

/-- The where clause synthesis shared by both derives (src/lib.rs lines
89-113 and 174-198), parameterized by the appended-predicate list: extend
a pre-existing clause, or synthesize a clause when the parameter list is
non-empty, or emit none. -/
def build_whereClause (generics : Generics) (appended : List WherePredicate) :
    Option WhereClause :=
  match generics.whereClause with
  | some clause => some { clause with predicates := clause.predicates ++ appended }
  | none =>
    if ¬ generics.params.isEmpty then
      some { predicates := appended }
    else
      none

/-- Embedding of derive_serialize (src/lib.rs lines 65-139): clone the
input twice, filter the json copy in json mode and the bin copy in binary
mode, rename the copies, resolve the serde path, build the where clause
from the bin copy's generics with Serialize bounds, and emit the two
shadows plus the dispatching implementation whose body tests
is_human_readable and delegates to the json shadow's serialize when true
and the bin shadow's serialize when false. -/
def derive_serialize (lookup : Option FoundCrate) (input : DeriveInput) :
    Except String DeriveOutput :=
  let ident := input.ident
  let json := filter_data input true
  let bin := filter_data input false
  let json := { json with ident := ident ++ "JsonImpl" }
  let bin := { bin with ident := ident ++ "BinaryImpl" }
  match find_serde_crate lookup with
  | .error e => .error e
  | .ok serde =>
    .ok
      { json_shadow := json
        bin_shadow := bin
        remote_name := ident
        impl_params := bin.generics.params
        impl_whereClause := build_whereClause bin.generics (serialize_predicates serde bin.generics.params)
        impl_body :=
          .IfElse (.MethodCall "serializer" "is_human_readable" [])
            (.PathCall json.ident "serialize" ["self", "serializer"])
            (.PathCall bin.ident "serialize" ["self", "serializer"]) }

/-- Embedding of derive_deserialize (src/lib.rs lines 141-224): as
derive_serialize, except that the source filters BOTH copies in json mode
(filter_data at lines 150-151 passes true twice — embedded faithfully),
the implementation generics get a fresh de lifetime inserted in front, the
appended bounds are Deserialize bounds for that lifetime, and the body
tests is_human_readable on the deserializer and delegates to the json
shadow's deserialize when true and the bin shadow's deserialize when
false. -/
def derive_deserialize (lookup : Option FoundCrate) (input : DeriveInput) :
    Except String DeriveOutput :=
  let ident := input.ident
  let json := filter_data input true
  let bin := filter_data input true
  let json := { json with ident := ident ++ "JsonImpl" }
  let bin := { bin with ident := ident ++ "BinaryImpl" }
  match find_serde_crate lookup with
  | .error e => .error e
  | .ok serde =>
    .ok
      { json_shadow := json
        bin_shadow := bin
        remote_name := ident
        impl_params := GenericParam.Lifetime "de" :: bin.generics.params
        impl_whereClause := build_whereClause bin.generics (deserialize_predicates serde bin.generics.params)
        impl_body :=
          .IfElse (.MethodCall "deserializer" "is_human_readable" [])
            (.PathCall json.ident "deserialize" ["deserializer"])
            (.PathCall bin.ident "deserialize" ["deserializer"]) }

/-- Observer: the identifiers of the type parameters of a parameter list,
in order. -/
def typeParamIdents (params : List GenericParam) : List String :=
  params.filterMap fun param =>
    match param with
    | .TypeParam ident _ => some ident
    | _ => none

/-!
Helper lemmas about the attribute filter.
-/

theorem Meta.path_setPath (a : Meta) (p : String) : (a.setPath p).path = p := by
  cases a <;> rfl

theorem Meta.payload_setPath (a : Meta) (p : String) : (a.setPath p).payload = a.payload := by
  cases a <;> rfl

theorem filter_attrs_nil (is_json : Bool) : filter_attrs [] is_json = [] := rfl

theorem filter_attrs_cons (a : Meta) (l : List Meta) (is_json : Bool) :
    filter_attrs (a :: l) is_json =
      if a.path = (if is_json then "json" else "bin") then
        a.setPath "serde" :: filter_attrs l is_json
      else if a.path ≠ "serde" then
        filter_attrs l is_json
      else
        a :: filter_attrs l is_json := rfl

theorem filter_attrs_append (l₁ l₂ : List Meta) (is_json : Bool) :
    filter_attrs (l₁ ++ l₂) is_json = filter_attrs l₁ is_json ++ filter_attrs l₂ is_json := by
  induction l₁ with
  | nil => rfl
  | cons a l ih =>
    rw [List.cons_append, filter_attrs_cons, filter_attrs_cons, ih]
    by_cases h₁ : a.path = (if is_json then "json" else "bin")
    · rw [if_pos h₁, if_pos h₁]
      rfl
    · rw [if_neg h₁, if_neg h₁]
      by_cases h₂ : a.path ≠ "serde"
      · rw [if_pos h₂, if_pos h₂]
      · rw [if_neg h₂, if_neg h₂]
        rfl

/-- Every attribute surviving the filter carries the shared serde tag:
own-mode entries are retagged to it, serde entries already carry it, and
everything else is removed. -/
theorem path_of_mem_filter_attrs (l : List Meta) (is_json : Bool) :
    ∀ a ∈ filter_attrs l is_json, a.path = "serde" := by
  induction l with
  | nil => intro a ha; cases ha
  | cons b l ih =>
    intro a ha
    rw [filter_attrs_cons] at ha
    by_cases h₁ : b.path = (if is_json then "json" else "bin")
    · rw [if_pos h₁, List.mem_cons] at ha
      rcases ha with rfl | ha
      · exact Meta.path_setPath b "serde"
      · exact ih a ha
    · rw [if_neg h₁] at ha
      by_cases h₂ : b.path ≠ "serde"
      · rw [if_pos h₂] at ha
        exact ih a ha
      · rw [if_neg h₂, List.mem_cons] at ha
        rcases ha with rfl | ha
        · exact not_not.mp h₂
        · exact ih a ha

/-- A list all of whose entries carry the serde tag is a fixed point of
the filter, in either mode. -/
theorem filter_attrs_of_all_serde (l : List Meta) (is_json : Bool)
    (h : ∀ a ∈ l, a.path = "serde") : filter_attrs l is_json = l := by
  induction l with
  | nil => rfl
  | cons b l ih =>
    have hb : b.path = "serde" := h b (List.mem_cons_self b l)
    have hrest : ∀ a ∈ l, a.path = "serde" := fun a ha => h a (List.mem_cons_of_mem b ha)
    rw [filter_attrs_cons, hb]
    have hne : ¬ ("serde" = if is_json then "json" else "bin") := by
      cases is_json <;> decide
    rw [if_neg hne, if_neg (by simp), ih hrest]

/-- Claim C2: the crate's filter_attrs removes entries with unrecognized
tags in both modes, contradicting the specified behavior of leaving every
shared-tagged or unrecognized-tagged entry unchanged.  Evaluated at the
failing input, a single attribute with the unrecognized tag doc: the
filter deletes it in json mode and in binary mode alike, while a
shared-tagged serde entry is kept. -/
theorem c2_filter_attrs_strips_unrecognized_tags :
    filter_attrs [Meta.Path "doc"] true = []
    ∧ filter_attrs [Meta.Path "doc"] false = []
    ∧ filter_attrs [Meta.Path "serde"] true = [Meta.Path "serde"] := by
  refine ⟨?_, ?_, ?_⟩ <;> rfl

/-- Claim C3: an entry tagged with the own mode-specific tag survives the
filter in place with its tag rewritten to the shared serde tag and its
payload shape and content preserved exactly. -/
theorem c3_own_tag_retagged_payload_preserved (is_json : Bool) (l₁ l₂ : List Meta) (a : Meta)
    (htag : a.path = (if is_json then "json" else "bin")) :
    filter_attrs (l₁ ++ a :: l₂) is_json
      = filter_attrs l₁ is_json ++ a.setPath "serde" :: filter_attrs l₂ is_json
    ∧ (a.setPath "serde").path = "serde"
    ∧ (a.setPath "serde").payload = a.payload := by
  refine ⟨?_, Meta.path_setPath a "serde", Meta.payload_setPath a "serde"⟩
  rw [filter_attrs_append, filter_attrs_cons, if_pos htag]

/-- Witness for C3 at a concrete input: a json-tagged name/value entry is
retagged to serde while the preceding serde entry and the payload are
untouched. -/
theorem c3_witness :
    filter_attrs ([Meta.Path "serde"] ++ Meta.NameValue "json" "rename" :: []) true
      = filter_attrs [Meta.Path "serde"] true
        ++ (Meta.NameValue "json" "rename").setPath "serde" :: filter_attrs [] true
    ∧ ((Meta.NameValue "json" "rename").setPath "serde").path = "serde"
    ∧ ((Meta.NameValue "json" "rename").setPath "serde").payload
        = (Meta.NameValue "json" "rename").payload :=
  c3_own_tag_retagged_payload_preserved true [Meta.Path "serde"] []
    (Meta.NameValue "json" "rename") rfl

/-- Claim C4: no entry of a filtered list carries the other mode's
mode-specific tag; every such entry is removed. -/
theorem c4_no_other_mode_tag_after_filter (l : List Meta) (is_json : Bool) (a : Meta)
    (ha : a ∈ filter_attrs l is_json) :
    a.path ≠ (if is_json then "bin" else "json") := by
  have h := path_of_mem_filter_attrs l is_json a ha
  rw [h]
  cases is_json <;> decide

/-- Witness for C4 at a concrete input: the serde-tagged survivor of a
json-mode filtering pass does not carry the bin tag. -/
theorem c4_witness :
    (Meta.Path "serde").path ≠ (if true then "bin" else "json") :=
  c4_no_other_mode_tag_after_filter [Meta.Path "serde"] true (Meta.Path "serde")
    (by decide)

/-- Claim C8: the attribute filter is idempotent per mode; a second pass
in the same mode leaves the once-filtered list unchanged. -/
theorem c8_filter_attrs_idempotent (l : List Meta) (is_json : Bool) :
    filter_attrs (filter_attrs l is_json) is_json = filter_attrs l is_json :=
  filter_attrs_of_all_serde (filter_attrs l is_json) is_json
    (path_of_mem_filter_attrs l is_json)

/-!
Helper lemmas about the declaration specializer filter_data.
-/

theorem map_field_erase (fs : List Field) (is_json : Bool) :
    (fs.map fun f => { f with attrs := filter_attrs f.attrs is_json }).map Field.eraseAttrs
      = fs.map Field.eraseAttrs := by
  rw [List.map_map]
  rfl

theorem map_field_attrs (fs : List Field) (is_json : Bool) :
    (fs.map fun f => { f with attrs := filter_attrs f.attrs is_json }).map Field.attrs
      = (fs.map Field.attrs).map (fun l => filter_attrs l is_json) := by
  rw [List.map_map, List.map_map]
  rfl

theorem variant_erase_filter (v : Variant) (is_json : Bool) :
    Variant.eraseAttrs
      { v with
        attrs := filter_attrs v.attrs is_json
        fields := v.fields.map fun f => { f with attrs := filter_attrs f.attrs is_json } }
      = v.eraseAttrs := by
  simp only [Variant.eraseAttrs, map_field_erase]

theorem map_variant_erase (vs : List Variant) (is_json : Bool) :
    (vs.map fun v =>
      { v with
        attrs := filter_attrs v.attrs is_json
        fields := v.fields.map fun f => { f with attrs := filter_attrs f.attrs is_json } }).map
        Variant.eraseAttrs
      = vs.map Variant.eraseAttrs := by
  induction vs with
  | nil => rfl
  | cons v vs ih =>
    simp only [List.map_cons, ih, variant_erase_filter]

theorem enum_attrLists_filter (vs : List Variant) (is_json : Bool) :
    ((vs.map fun v =>
      { v with
        attrs := filter_attrs v.attrs is_json
        fields := v.fields.map fun (f : Field) =>
          { f with attrs := filter_attrs f.attrs is_json } }).map
        fun (v : Variant) => v.attrs :: v.fields.map Field.attrs).flatten
      = ((vs.map fun (v : Variant) => v.attrs :: v.fields.map Field.attrs).flatten).map
          (fun l => filter_attrs l is_json) := by
  induction vs with
  | nil => rfl
  | cons v vs ih =>
    simp only [List.map_cons, List.flatten_cons, List.map_append, ih, map_field_attrs]

/-- Claim C7: the declaration specializer mutates only annotation lists
and visits every one of them.  First conjunct: blanking every attribute
list of the specialized copy gives back the blanked original, so the
identifier, generics, field names, field types and variant structure are
untouched and the two per-mode copies agree on everything but attributes.
Second conjunct: the attribute lists of the copy, in traversal order
(declaration list, then per body shape every field list, every variant
list with its fields' lists, or every union member list), are exactly the
pointwise filterings of the original's lists. -/
theorem c7_filter_data_frame (input : DeriveInput) (is_json : Bool) :
    (filter_data input is_json).eraseAttrs = input.eraseAttrs
    ∧ (filter_data input is_json).attrLists
        = input.attrLists.map (fun l => filter_attrs l is_json) := by
  obtain ⟨attrs, ident, generics, data⟩ := input
  constructor
  · cases data with
    | Struct fields =>
      simp only [filter_data, DeriveInput.eraseAttrs, Data.eraseAttrs, map_field_erase]
    | Enum variants =>
      simp only [filter_data, DeriveInput.eraseAttrs, Data.eraseAttrs, map_variant_erase]
    | Union named =>
      simp only [filter_data, DeriveInput.eraseAttrs, Data.eraseAttrs, map_field_erase]
  · cases data with
    | Struct fields =>
      simp only [filter_data, DeriveInput.attrLists, Data.attrLists, List.map_cons,
        map_field_attrs]
    | Enum variants =>
      simp only [filter_data, DeriveInput.attrLists, Data.attrLists, List.map_cons,
        enum_attrLists_filter]
    | Union named =>
      simp only [filter_data, DeriveInput.attrLists, Data.attrLists, List.map_cons,
        map_field_attrs]

/-- Claim C9: when the serde lookup fails entirely, generation aborts with
the fatal diagnostic that the dependency is required, in both derives;
when the lookup succeeds, the resolved path is the local crate path or the
aliased external path and generation always produces output — there is no
other error path in either generator. -/
theorem c9_find_serde_crate_abort_or_resolve :
    find_serde_crate none = .error "serde is a co-dependency of serde-split"
    ∧ find_serde_crate (some .Itself) = .ok .localCrate
    ∧ (∀ name, find_serde_crate (some (.Name name)) = .ok (.external name))
    ∧ (∀ input, derive_serialize none input = .error "serde is a co-dependency of serde-split"
        ∧ derive_deserialize none input = .error "serde is a co-dependency of serde-split")
    ∧ (∀ fc input, (∃ out, derive_serialize (some fc) input = .ok out)
        ∧ ∃ out, derive_deserialize (some fc) input = .ok out) := by
  refine ⟨rfl, rfl, fun name => rfl, fun input => ⟨rfl, rfl⟩, fun fc input => ⟨?_, ?_⟩⟩
  · cases fc <;> exact ⟨_, rfl⟩
  · cases fc <;> exact ⟨_, rfl⟩

/-- Claim C1: the deserialize pipeline does NOT specialize its
binary-named shadow in binary mode: src/lib.rs lines 150-151 filter both
copies in json mode.  Evaluated at a declaration carrying one bin-tagged
attribute: the emitted binary-named shadow has lost the attribute
entirely (json-mode filtering removed the bin tag), whereas binary-mode
filtering — what the claim and the serialize pipeline prescribe — retags
it to serde; the serialize pipeline's binary shadow indeed keeps it. -/
theorem c1_deserialize_bin_shadow_not_binary_filtered :
    (derive_deserialize (some .Itself)
        { attrs := [Meta.Path "bin"], ident := "Foo",
          generics := { params := [], whereClause := none }, data := .Struct [] }).map
        (fun out => out.bin_shadow.attrs) = .ok []
    ∧ (filter_data
        { attrs := [Meta.Path "bin"], ident := "Foo",
          generics := { params := [], whereClause := none }, data := .Struct [] }
        false).attrs = [Meta.Path "serde"]
    ∧ (derive_serialize (some .Itself)
        { attrs := [Meta.Path "bin"], ident := "Foo",
          generics := { params := [], whereClause := none }, data := .Struct [] }).map
        (fun out => out.bin_shadow.attrs) = .ok [Meta.Path "serde"] := by
  refine ⟨rfl, rfl, rfl⟩

/-!
Helper lemmas about the two derive pipelines.
-/

theorem filter_data_generics (input : DeriveInput) (is_json : Bool) :
    (filter_data input is_json).generics = input.generics := rfl

theorem serialize_predicates_eq (serde : SerdePath) (params : List GenericParam) :
    serialize_predicates serde params
      = (typeParamIdents params).map (fun n => .TraitReq n (.Serialize serde)) := by
  induction params with
  | nil => rfl
  | cons p ps ih =>
    cases p <;> simp only [serialize_predicates, typeParamIdents, List.filterMap_cons,
      List.map_cons] <;> simp only [serialize_predicates, typeParamIdents] at ih <;> rw [ih]

theorem deserialize_predicates_eq (serde : SerdePath) (params : List GenericParam) :
    deserialize_predicates serde params
      = (typeParamIdents params).map (fun n => .TraitReq n (.Deserialize serde "de")) := by
  induction params with
  | nil => rfl
  | cons p ps ih =>
    cases p <;> simp only [deserialize_predicates, typeParamIdents, List.filterMap_cons,
      List.map_cons] <;> simp only [deserialize_predicates, typeParamIdents] at ih <;> rw [ih]

theorem derive_serialize_whereClause (lookup : Option FoundCrate) (input : DeriveInput)
    (serde : SerdePath) (hserde : find_serde_crate lookup = .ok serde) :
    ((derive_serialize lookup input).map fun out => out.impl_whereClause)
      = .ok (build_whereClause input.generics
          (serialize_predicates serde input.generics.params)) := by
  simp only [derive_serialize, hserde, Except.map]
  rfl

theorem derive_deserialize_whereClause (lookup : Option FoundCrate) (input : DeriveInput)
    (serde : SerdePath) (hserde : find_serde_crate lookup = .ok serde) :
    ((derive_deserialize lookup input).map fun out => out.impl_whereClause)
      = .ok (build_whereClause input.generics
          (deserialize_predicates serde input.generics.params)) := by
  simp only [derive_deserialize, hserde, Except.map]
  rfl

theorem build_whereClause_extend (g : Generics) (appended : List WherePredicate)
    (c : WhereClause) (h : g.whereClause = some c) :
    build_whereClause g appended = some { predicates := c.predicates ++ appended } := by
  simp only [build_whereClause, h]

theorem build_whereClause_fresh (g : Generics) (appended : List WherePredicate)
    (h : g.whereClause = none) (hne : g.params ≠ []) :
    build_whereClause g appended = some { predicates := appended } := by
  simp only [build_whereClause, h]
  rw [if_pos]
  intro habs
  exact hne (List.isEmpty_iff.mp habs)

theorem build_whereClause_empty (g : Generics) (appended : List WherePredicate)
    (h : g.whereClause = none) (hnil : g.params = []) :
    build_whereClause g appended = none := by
  simp only [build_whereClause, h, hnil]
  rfl

/-- Claim C5: in both pipelines the emitted trait implementation for the
original type has exactly one runtime branch, testing the active format's
is_human_readable capability and delegating to the json-suffixed
text-mode shadow when true and the binary-suffixed shadow when false; the
two shadow declarations indeed carry those identifiers. -/
theorem c5_single_runtime_branch_dispatch (lookup : Option FoundCrate) (input : DeriveInput)
    (serde : SerdePath) (hserde : find_serde_crate lookup = .ok serde) :
    ((derive_serialize lookup input).map fun out => out.impl_body.countBranches) = .ok 1
    ∧ ((derive_serialize lookup input).map fun out => out.impl_body)
        = .ok (.IfElse (.MethodCall "serializer" "is_human_readable" [])
            (.PathCall (input.ident ++ "JsonImpl") "serialize" ["self", "serializer"])
            (.PathCall (input.ident ++ "BinaryImpl") "serialize" ["self", "serializer"]))
    ∧ ((derive_serialize lookup input).map fun out => out.json_shadow.ident)
        = .ok (input.ident ++ "JsonImpl")
    ∧ ((derive_serialize lookup input).map fun out => out.bin_shadow.ident)
        = .ok (input.ident ++ "BinaryImpl")
    ∧ ((derive_deserialize lookup input).map fun out => out.impl_body.countBranches) = .ok 1
    ∧ ((derive_deserialize lookup input).map fun out => out.impl_body)
        = .ok (.IfElse (.MethodCall "deserializer" "is_human_readable" [])
            (.PathCall (input.ident ++ "JsonImpl") "deserialize" ["deserializer"])
            (.PathCall (input.ident ++ "BinaryImpl") "deserialize" ["deserializer"]))
    ∧ ((derive_deserialize lookup input).map fun out => out.json_shadow.ident)
        = .ok (input.ident ++ "JsonImpl")
    ∧ ((derive_deserialize lookup input).map fun out => out.bin_shadow.ident)
        = .ok (input.ident ++ "BinaryImpl") := by
  refine ⟨?_, ?_, ?_, ?_, ?_, ?_, ?_, ?_⟩ <;>
    simp only [derive_serialize, derive_deserialize, hserde, Except.map] <;> rfl

/-- Witness for C5 at a concrete lookup and declaration. -/
theorem c5_witness :
    ((derive_serialize (some .Itself)
        { attrs := [], ident := "Foo",
          generics := { params := [], whereClause := none },
          data := .Struct [] }).map fun out => out.impl_body.countBranches) = .ok 1
    ∧ ((derive_serialize (some .Itself)
        { attrs := [], ident := "Foo",
          generics := { params := [], whereClause := none },
          data := .Struct [] }).map fun out => out.impl_body)
        = .ok (.IfElse (.MethodCall "serializer" "is_human_readable" [])
            (.PathCall ("Foo" ++ "JsonImpl") "serialize" ["self", "serializer"])
            (.PathCall ("Foo" ++ "BinaryImpl") "serialize" ["self", "serializer"]))
    ∧ ((derive_serialize (some .Itself)
        { attrs := [], ident := "Foo",
          generics := { params := [], whereClause := none },
          data := .Struct [] }).map fun out => out.json_shadow.ident)
        = .ok ("Foo" ++ "JsonImpl")
    ∧ ((derive_serialize (some .Itself)
        { attrs := [], ident := "Foo",
          generics := { params := [], whereClause := none },
          data := .Struct [] }).map fun out => out.bin_shadow.ident)
        = .ok ("Foo" ++ "BinaryImpl")
    ∧ ((derive_deserialize (some .Itself)
        { attrs := [], ident := "Foo",
          generics := { params := [], whereClause := none },
          data := .Struct [] }).map fun out => out.impl_body.countBranches) = .ok 1
    ∧ ((derive_deserialize (some .Itself)
        { attrs := [], ident := "Foo",
          generics := { params := [], whereClause := none },
          data := .Struct [] }).map fun out => out.impl_body)
        = .ok (.IfElse (.MethodCall "deserializer" "is_human_readable" [])
            (.PathCall ("Foo" ++ "JsonImpl") "deserialize" ["deserializer"])
            (.PathCall ("Foo" ++ "BinaryImpl") "deserialize" ["deserializer"]))
    ∧ ((derive_deserialize (some .Itself)
        { attrs := [], ident := "Foo",
          generics := { params := [], whereClause := none },
          data := .Struct [] }).map fun out => out.json_shadow.ident)
        = .ok ("Foo" ++ "JsonImpl")
    ∧ ((derive_deserialize (some .Itself)
        { attrs := [], ident := "Foo",
          generics := { params := [], whereClause := none },
          data := .Struct [] }).map fun out => out.bin_shadow.ident)
        = .ok ("Foo" ++ "BinaryImpl") :=
  c5_single_runtime_branch_dispatch (some .Itself)
    { attrs := [], ident := "Foo",
      generics := { params := [], whereClause := none },
      data := .Struct [] }
    .localCrate rfl

/-- Claim C6: the where clause of the emitted implementation.  With no
pre-existing where clause and a non-empty parameter list, the clause
consists of exactly one appended bound per generic type parameter, in
order — a Serialize bound in the serialize direction and a Deserialize
bound for the introduced de borrow lifetime in the deserialize direction.
With an empty parameter list (and hence, per the source's decision chain,
no pre-existing clause), no clause is emitted.  With a pre-existing
clause, the new bounds are appended after its predicates. -/
theorem c6_where_clause_bounds (lookup : Option FoundCrate) (input : DeriveInput)
    (serde : SerdePath) (hserde : find_serde_crate lookup = .ok serde) :
    (input.generics.whereClause = none → input.generics.params ≠ [] →
      ((derive_serialize lookup input).map fun out => out.impl_whereClause)
        = .ok (some { predicates := ((typeParamIdents input.generics.params).map
            fun n => .TraitReq n (.Serialize serde)) })
      ∧ ((derive_deserialize lookup input).map fun out => out.impl_whereClause)
        = .ok (some { predicates := ((typeParamIdents input.generics.params).map
            fun n => .TraitReq n (.Deserialize serde "de")) }))
    ∧ (input.generics.whereClause = none → input.generics.params = [] →
      ((derive_serialize lookup input).map fun out => out.impl_whereClause) = .ok none
      ∧ ((derive_deserialize lookup input).map fun out => out.impl_whereClause) = .ok none)
    ∧ (∀ c, input.generics.whereClause = some c →
      ((derive_serialize lookup input).map fun out => out.impl_whereClause)
        = .ok (some { predicates := (c.predicates
            ++ (typeParamIdents input.generics.params).map
              fun n => .TraitReq n (.Serialize serde)) })
      ∧ ((derive_deserialize lookup input).map fun out => out.impl_whereClause)
        = .ok (some { predicates := (c.predicates
            ++ (typeParamIdents input.generics.params).map
              fun n => .TraitReq n (.Deserialize serde "de")) })) := by
  refine ⟨fun h1 h2 => ⟨?_, ?_⟩, fun h1 h2 => ⟨?_, ?_⟩, fun c hc => ⟨?_, ?_⟩⟩
  · rw [derive_serialize_whereClause lookup input serde hserde,
      build_whereClause_fresh input.generics _ h1 h2, serialize_predicates_eq]
  · rw [derive_deserialize_whereClause lookup input serde hserde,
      build_whereClause_fresh input.generics _ h1 h2, deserialize_predicates_eq]
  · rw [derive_serialize_whereClause lookup input serde hserde,
      build_whereClause_empty input.generics _ h1 h2]
  · rw [derive_deserialize_whereClause lookup input serde hserde,
      build_whereClause_empty input.generics _ h1 h2]
  · rw [derive_serialize_whereClause lookup input serde hserde,
      build_whereClause_extend input.generics _ c hc, serialize_predicates_eq]
  · rw [derive_deserialize_whereClause lookup input serde hserde,
      build_whereClause_extend input.generics _ c hc, deserialize_predicates_eq]

/-- Witness for C6 at a concrete declaration with one type parameter T
and no pre-existing where clause: both emitted clauses consist of the one
bound for T. -/
theorem c6_witness :
    ((derive_serialize (some .Itself)
        { attrs := [], ident := "Foo",
          generics := { params := [GenericParam.TypeParam "T" []], whereClause := none },
          data := .Struct [] }).map fun out => out.impl_whereClause)
      = .ok (some { predicates := ((typeParamIdents [GenericParam.TypeParam "T" []]).map
          fun n => .TraitReq n (.Serialize .localCrate)) })
    ∧ ((derive_deserialize (some .Itself)
        { attrs := [], ident := "Foo",
          generics := { params := [GenericParam.TypeParam "T" []], whereClause := none },
          data := .Struct [] }).map fun out => out.impl_whereClause)
      = .ok (some { predicates := ((typeParamIdents [GenericParam.TypeParam "T" []]).map
          fun n => .TraitReq n (.Deserialize .localCrate "de")) }) :=
  (c6_where_clause_bounds (some .Itself)
    { attrs := [], ident := "Foo",
      generics := { params := [GenericParam.TypeParam "T" []], whereClause := none },
      data := .Struct [] }
    .localCrate rfl).1 rfl (List.cons_ne_nil _ _)

/-- Claim C10: for a declaration whose parameter list is non-empty but
contains no type parameters and that has no pre-existing where clause,
both derives still synthesize a where clause containing zero predicates —
a bare where — because the emptiness check at src/lib.rs lines 101 and
186 is on the whole parameter list, not on the type parameters alone. -/
theorem c10_bare_where_without_type_params (lookup : Option FoundCrate) (input : DeriveInput)
    (serde : SerdePath) (hserde : find_serde_crate lookup = .ok serde)
    (hne : input.generics.params ≠ [])
    (hnotype : typeParamIdents input.generics.params = [])
    (hnone : input.generics.whereClause = none) :
    ((derive_serialize lookup input).map fun out => out.impl_whereClause)
      = .ok (some { predicates := [] })
    ∧ ((derive_deserialize lookup input).map fun out => out.impl_whereClause)
      = .ok (some { predicates := [] }) := by
  constructor
  · rw [derive_serialize_whereClause lookup input serde hserde,
      build_whereClause_fresh input.generics _ hnone hne, serialize_predicates_eq, hnotype]
    rfl
  · rw [derive_deserialize_whereClause lookup input serde hserde,
      build_whereClause_fresh input.generics _ hnone hne, deserialize_predicates_eq, hnotype]
    rfl

/-- Witness for C10 at a concrete declaration with one lifetime parameter
and nothing else: both emitted clauses are bare, with zero predicates. -/
theorem c10_witness :
    ((derive_serialize (some .Itself)
        { attrs := [], ident := "Bar",
          generics := { params := [GenericParam.Lifetime "a"], whereClause := none },
          data := .Struct [] }).map fun out => out.impl_whereClause)
      = .ok (some { predicates := [] })
    ∧ ((derive_deserialize (some .Itself)
        { attrs := [], ident := "Bar",
          generics := { params := [GenericParam.Lifetime "a"], whereClause := none },
          data := .Struct [] }).map fun out => out.impl_whereClause)
      = .ok (some { predicates := [] }) :=
  c10_bare_where_without_type_params (some .Itself)
    { attrs := [], ident := "Bar",
      generics := { params := [GenericParam.Lifetime "a"], whereClause := none },
      data := .Struct [] }
    .localCrate rfl (List.cons_ne_nil _ _) rfl rfl

end SerdeSplit
